import Mathlib

/-!
# Verification of the quirknotes backend (`src/backend-example/server.js`)

A shallow embedding of the Express + MongoDB note-taking backend.

* MongoDB collections become Lean lists inside a `DB` state; the driver
  operations used by the code (`findOne`, `insertOne`, `find().toArray()`,
  `findOneAndDelete`, `findOneAndUpdate`) become pure functions on that state.
* `bcrypt.hash` is modelled as pairing the plaintext with a fresh salt drawn
  from the state (the code never inspects digests other than via
  `bcrypt.compare`, which we model as comparing the stored plaintext);
  `jwt.sign`/`jwt.verify` are modelled as a record carrying the payload,
  expiry and signing key, with verification checking key and expiry.
* Each Express handler becomes a function from the request data and the
  current `DB` to a `RouteOut`: the HTTP response (status and body), the
  resulting `DB`, and the trace of store operations performed, in order.
  JavaScript truthiness on request-body strings is modelled by emptiness
  (absent and `""` are both falsy, taking the same branch in the source).
* A request with no `Authorization` header at all makes
  `req.headers.authorization.split(" ")[1]` throw a `TypeError`, which the
  surrounding `try`/`catch` turns into a 500 response; this path is modelled
  explicitly (`auth = none`).
-/

set_option autoImplicit false

namespace Quirknotes

/-- A bcrypt digest: the code only ever feeds digests back to
`bcrypt.compare`, so we model a digest as the salt used plus the plaintext
it was derived from. -/
structure Digest where
  salt : Nat
  plain : String
  deriving DecidableEq, Repr

/-- `bcrypt.hash(password, 10)` with the store supplying a fresh salt. -/
def bcryptHash (salt : Nat) (password : String) : Digest :=
  ⟨salt, password⟩

/-- `bcrypt.compare(password, digest)`: true iff the digest was produced
from this plaintext (under any salt). -/
def bcryptCompare (password : String) (d : Digest) : Bool :=
  d.plain == password

/-- The value obtained from `req.headers.authorization.split(" ")[1]` when
the header is present: either no second component / unparseable bytes, or a
signed token with its payload username, expiry timestamp and signing key. -/
inductive TokenVal where
  | garbage
  | signed (username : String) (exp : Nat) (key : String)
  deriving DecidableEq, Repr

/-- The process-wide signing secret hardcoded in the source. -/
def secretKey : String := "secret-key"

/-- `jwt.sign({username}, key, {expiresIn: "1h"})` at time `now` (seconds). -/
def jwtSign (key : String) (username : String) (now : Nat) : TokenVal :=
  .signed username (now + 3600) key

/-- `jwt.verify(token, key, cb)` at time `now`: yields the payload username
when the signature key matches and the token is unexpired, otherwise the
error branch (`none`). -/
def jwtVerify (key : String) (now : Nat) : TokenVal → Option String
  | .garbage => none
  | .signed u e k => if k == key && now < e then some u else none

/-- A document of the `users` collection: `{username, password}` where
`password` holds the bcrypt digest. -/
structure UserRec where
  username : String
  password : Digest
  deriving DecidableEq, Repr

/-- A document of the `notes` collection: `{_id, title, content, username}`. -/
structure Note where
  id : Nat
  title : String
  content : String
  username : String
  deriving DecidableEq, Repr

/-- The MongoDB state: the two collections, the ObjectId source for
`insertOne` on `notes`, and the bcrypt salt source. -/
structure DB where
  users : List UserRec
  notes : List Note
  nextNoteId : Nat
  nextSalt : Nat
  deriving DecidableEq, Repr

/-- One store access, for tracing which collection an operation touched. -/
inductive StoreOp where
  | userFind
  | userInsert
  | noteInsert
  | noteFind
  | noteFindAll
  | noteDelete
  | noteUpdate
  deriving DecidableEq, Repr

/-- `users.findOne({username})`. -/
def usersFindOne (db : DB) (username : String) : Option UserRec :=
  db.users.find? (fun r => r.username == username)

/-- `users.insertOne({username, password})`. -/
def usersInsertOne (db : DB) (username : String) (password : Digest) : DB :=
  { db with users := db.users ++ [⟨username, password⟩] }

/-- `notes.insertOne({title, content, username})`: assigns a fresh `_id`
and returns it together with the new state. -/
def notesInsertOne (db : DB) (title content username : String) : Nat × DB :=
  (db.nextNoteId,
   { db with
      notes := db.notes ++ [⟨db.nextNoteId, title, content, username⟩],
      nextNoteId := db.nextNoteId + 1 })

/-- The owner-scoped filter `{username, _id}` used by every single-note query. -/
def noteMatch (username : String) (oid : Nat) (n : Note) : Bool :=
  n.username == username && n.id == oid

/-- `notes.findOne({username, _id})`. -/
def notesFindOne (db : DB) (username : String) (oid : Nat) : Option Note :=
  db.notes.find? (noteMatch username oid)

/-- `notes.find({username}).toArray()`. -/
def notesFindAll (db : DB) (username : String) : List Note :=
  db.notes.filter (fun n => n.username == username)

/-- Remove the first element satisfying `p`, returning it (or `none`)
together with the remaining list. -/
def deleteFirst {α : Type} (p : α → Bool) : List α → Option α × List α
  | [] => (none, [])
  | a :: as =>
    if p a then (some a, as)
    else
      let r := deleteFirst p as
      (r.1, a :: r.2)

/-- Replace the first element satisfying `p` by its image under `f`,
returning the matched element (or `none`) together with the new list. -/
def updateFirst {α : Type} (p : α → Bool) (f : α → α) : List α → Option α × List α
  | [] => (none, [])
  | a :: as =>
    if p a then (some a, f a :: as)
    else
      let r := updateFirst p f as
      (r.1, a :: r.2)

/-- `notes.findOneAndDelete({username, _id})`. -/
def notesFindOneAndDelete (db : DB) (username : String) (oid : Nat) :
    Option Note × DB :=
  let r := deleteFirst (noteMatch username oid) db.notes
  (r.1, { db with notes := r.2 })

/-- `notes.findOneAndUpdate({username, _id}, {$set: {title, content}})`. -/
def notesFindOneAndUpdate (db : DB) (username : String) (oid : Nat)
    (title content : String) : Option Note × DB :=
  let r := updateFirst (noteMatch username oid)
    (fun n => { n with title := title, content := content }) db.notes
  (r.1, { db with notes := r.2 })

/-- The bodies this server sends back with `res.json` / `res.send`. -/
inductive Body where
  | errorMsg (msg : String)
  | text (s : String)
  | registerOk (response : String) (token : TokenVal)
  | loginOk (response : String) (token : TokenVal)
  | postOk (response : String) (insertedId : Nat)
  | noteData (n : Note)
  | notesData (ns : List Note)
  | msgOnly (response : String)
  deriving DecidableEq, Repr

/-- The observable outcome of one request: HTTP status and body, the
resulting database state, and the ordered trace of store accesses. -/
structure RouteOut where
  status : Nat
  body : Body
  db : DB
  trace : List StoreOp
  deriving DecidableEq, Repr

/-- The message of the `TypeError` thrown by
`req.headers.authorization.split(" ")[1]` when the header is absent,
surfaced by the `catch` as a 500 body. -/
def missingHeaderError : String :=
  "Cannot read properties of undefined (reading 'split')"

/-- The `:noteId` path parameter: either a string that passes
`ObjectId.isValid` (carrying the ObjectId it denotes) or one that fails it. -/
inductive NoteIdParam where
  | wellFormed (oid : Nat)
  | malformed (raw : String)
  deriving DecidableEq, Repr

/-- `POST /registerUser` with body `{username, password}`. -/
def registerUser (db : DB) (now : Nat) (username password : String) : RouteOut :=
  if username == "" || password == "" then
    ⟨400, .errorMsg "Username and password both needed to register.", db, []⟩
  else
    match usersFindOne db username with
    | some _ => ⟨400, .errorMsg "Username already exists.", db, [.userFind]⟩
    | none =>
      let hashed := bcryptHash db.nextSalt password
      let db1 := usersInsertOne { db with nextSalt := db.nextSalt + 1 } username hashed
      ⟨201, .registerOk "User registered successfully." (jwtSign secretKey username now),
        db1, [.userFind, .userInsert]⟩

/-- `POST /loginUser` with body `{username, password}`. -/
def loginUser (db : DB) (now : Nat) (username password : String) : RouteOut :=
  if username == "" || password == "" then
    ⟨400, .errorMsg "Username and password both needed to login.", db, []⟩
  else
    match usersFindOne db username with
    | some user =>
      if bcryptCompare password user.password then
        ⟨200, .loginOk "User logged in succesfully." (jwtSign secretKey username now),
          db, [.userFind]⟩
      else
        ⟨401, .errorMsg "Authentication failed.", db, [.userFind]⟩
    | none => ⟨401, .errorMsg "Authentication failed.", db, [.userFind]⟩

/-- `POST /postNote` with body `{title, content}`; `auth` is the parsed
`Authorization` header (`none` = header absent, so reading it throws). -/
def postNote (db : DB) (now : Nat) (auth : Option TokenVal)
    (title content : String) : RouteOut :=
  if title == "" || content == "" then
    ⟨400, .errorMsg "Title and content are both required.", db, []⟩
  else
    match auth with
    | none => ⟨500, .errorMsg missingHeaderError, db, []⟩
    | some tok =>
      match jwtVerify secretKey now tok with
      | none => ⟨401, .text "Unauthorized.", db, []⟩
      | some u =>
        let r := notesInsertOne db title content u
        ⟨200, .postOk "Note added succesfully." r.1, r.2, [.noteInsert]⟩

/-- `GET /getNote/:noteId`. -/
def getNote (db : DB) (now : Nat) (auth : Option TokenVal)
    (noteId : NoteIdParam) : RouteOut :=
  match noteId with
  | .malformed _ => ⟨400, .errorMsg "Invalid note ID.", db, []⟩
  | .wellFormed oid =>
    match auth with
    | none => ⟨500, .errorMsg missingHeaderError, db, []⟩
    | some tok =>
      match jwtVerify secretKey now tok with
      | none => ⟨401, .text "Unauthorized.", db, []⟩
      | some u =>
        match notesFindOne db u oid with
        | none => ⟨404, .errorMsg "Unable to find note with given ID.", db, [.noteFind]⟩
        | some n => ⟨200, .noteData n, db, [.noteFind]⟩

/-- `GET /getAllNotes`. -/
def getAllNotes (db : DB) (now : Nat) (auth : Option TokenVal) : RouteOut :=
  match auth with
  | none => ⟨500, .errorMsg missingHeaderError, db, []⟩
  | some tok =>
    match jwtVerify secretKey now tok with
    | none => ⟨401, .text "Unauthorized.", db, []⟩
    | some u => ⟨200, .notesData (notesFindAll db u), db, [.noteFindAll]⟩

/-- `GET /deleteNote/:noteId`. -/
def deleteNote (db : DB) (now : Nat) (auth : Option TokenVal)
    (noteId : NoteIdParam) : RouteOut :=
  match noteId with
  | .malformed _ => ⟨400, .errorMsg "Invalid note ID.", db, []⟩
  | .wellFormed oid =>
    match auth with
    | none => ⟨500, .errorMsg missingHeaderError, db, []⟩
    | some tok =>
      match jwtVerify secretKey now tok with
      | none => ⟨401, .text "Unauthorized.", db, []⟩
      | some u =>
        let r := notesFindOneAndDelete db u oid
        match r.1 with
        | none =>
          ⟨404, .errorMsg "Unable to find note with given ID.", r.2, [.noteDelete]⟩
        | some _ =>
          ⟨200, .msgOnly ("Document with ID " ++ toString oid ++ " deleted succesfully."),
            r.2, [.noteDelete]⟩

/-- `GET /editNote/:noteId` with body `{title?, content?}` (absent fields
modelled as `""`, which takes the same falsy branches in the source). -/
def editNote (db : DB) (now : Nat) (auth : Option TokenVal)
    (noteId : NoteIdParam) (title content : String) : RouteOut :=
  match noteId with
  | .malformed _ => ⟨400, .errorMsg "Invalid note ID.", db, []⟩
  | .wellFormed oid =>
    match auth with
    | none => ⟨500, .errorMsg missingHeaderError, db, []⟩
    | some tok =>
      match jwtVerify secretKey now tok with
      | none => ⟨401, .text "Unauthorized.", db, []⟩
      | some u =>
        if title == "" && content == "" then
          ⟨400, .errorMsg "A title or content are needed to update the note", db, []⟩
        else
          match notesFindOne db u oid with
          | none =>
            ⟨404, .errorMsg "Unable to find note with given ID.", db, [.noteFind]⟩
          | some originalNote =>
            let newTitle := if title == "" then originalNote.title else title
            let newContent := if content == "" then originalNote.content else content
            let r := notesFindOneAndUpdate db u oid newTitle newContent
            ⟨200, .msgOnly ("Document with ID " ++ toString oid ++ " properly updated."),
              r.2, [.noteFind, .noteUpdate]⟩

/-! ## Store invariants

Maintained by the store itself: `insertOne` hands out a fresh `_id`
strictly larger than every id already present, so ids are pairwise
distinct. -/

/-- All note ids in the store are pairwise distinct. -/
def DB.idsUnique (db : DB) : Prop :=
  (db.notes.map Note.id).Nodup

/-- Every stored note id is below the id counter. -/
def DB.idsFresh (db : DB) : Prop :=
  ∀ n ∈ db.notes, n.id < db.nextNoteId

instance (db : DB) : Decidable db.idsUnique := by
  unfold DB.idsUnique; infer_instance

instance (db : DB) : Decidable db.idsFresh := by
  unfold DB.idsFresh; infer_instance

/-! ## List helper lemmas -/

theorem find?_append_none {α : Type} (p : α → Bool) (l₁ l₂ : List α)
    (h : l₁.find? p = none) : (l₁ ++ l₂).find? p = l₂.find? p := by
  rw [List.find?_append, h]; rfl

theorem deleteFirst_eq_none {α : Type} (p : α → Bool) (l : List α)
    (h : ∀ a ∈ l, p a = false) : deleteFirst p l = (none, l) := by
  induction l with
  | nil => rfl
  | cons a as ih =>
    have ha : p a = false := h a (List.mem_cons_self a as)
    simp only [deleteFirst, ha, if_neg Bool.false_ne_true,
      ih (fun x hx => h x (List.mem_cons_of_mem a hx))]

theorem deleteFirst_decomp {α : Type} (p : α → Bool) (l : List α) (n : α)
    (hn : n ∈ l) (hp : p n = true) :
    ∃ m l₁ l₂, p m = true ∧ l = l₁ ++ m :: l₂ ∧ (∀ x ∈ l₁, p x = false) ∧
      deleteFirst p l = (some m, l₁ ++ l₂) := by
  induction l with
  | nil => cases hn
  | cons a as ih =>
    by_cases ha : p a = true
    · exact ⟨a, [], as, ha, rfl, by simp, by simp [deleteFirst, ha]⟩
    · have ha' : p a = false := by
        cases hpa : p a with
        | true => exact absurd hpa ha
        | false => rfl
      have hn' : n ∈ as := by
        rcases List.mem_cons.mp hn with h | h
        · exact absurd (h ▸ hp) ha
        · exact h
      obtain ⟨m, l₁, l₂, hm, hl, hfail, hdel⟩ := ih hn'
      refine ⟨m, a :: l₁, l₂, hm, by simp [hl], ?_, ?_⟩
      · intro x hx
        rcases List.mem_cons.mp hx with h | h
        · exact h ▸ ha'
        · exact hfail x h
      · simp [deleteFirst, ha', hdel]

theorem updateFirst_decomp {α : Type} (p : α → Bool) (f : α → α) (l : List α)
    (n : α) (hn : n ∈ l) (hp : p n = true) :
    ∃ m l₁ l₂, p m = true ∧ l = l₁ ++ m :: l₂ ∧ (∀ x ∈ l₁, p x = false) ∧
      updateFirst p f l = (some m, l₁ ++ f m :: l₂) := by
  induction l with
  | nil => cases hn
  | cons a as ih =>
    by_cases ha : p a = true
    · exact ⟨a, [], as, ha, rfl, by simp, by simp [updateFirst, ha]⟩
    · have ha' : p a = false := by
        cases hpa : p a with
        | true => exact absurd hpa ha
        | false => rfl
      have hn' : n ∈ as := by
        rcases List.mem_cons.mp hn with h | h
        · exact absurd (h ▸ hp) ha
        · exact h
      obtain ⟨m, l₁, l₂, hm, hl, hfail, hupd⟩ := ih hn'
      refine ⟨m, a :: l₁, l₂, hm, by simp [hl], ?_, ?_⟩
      · intro x hx
        rcases List.mem_cons.mp hx with h | h
        · exact h ▸ ha'
        · exact hfail x h
      · simp [updateFirst, ha', hupd]

/-- With pairwise-distinct ids, a stored note sharing `n`'s id is `n`. -/
theorem eq_of_id_eq {db : DB} (huniq : db.idsUnique) {n m : Note}
    (hn : n ∈ db.notes) (hm : m ∈ db.notes) (hid : m.id = n.id) : m = n :=
  List.inj_on_of_nodup_map huniq hm hn hid

/-- If `n` is owned by `A` and the caller is `B ≠ A`, then under unique ids
no stored note matches the owner-scoped filter `{username := B, _id := n.id}`. -/
theorem no_match_of_other_owner {db : DB} (huniq : db.idsUnique)
    {n : Note} (hn : n ∈ db.notes) {A B : String} (hown : n.username = A)
    (hAB : A ≠ B) : ∀ m ∈ db.notes, noteMatch B n.id m = false := by
  intro m hm
  unfold noteMatch
  by_cases hid : m.id = n.id
  · have : m = n := eq_of_id_eq huniq hn hm hid
    subst this
    have : (m.username == B) = false := by
      rw [hown]; exact beq_eq_false_iff_ne.mpr hAB
    simp [this]
  · have : (m.id == n.id) = false := by simp [hid]
    simp [this]

/-- With unique ids, looking up an owned note by its own id finds exactly it. -/
theorem notesFindOne_eq_of_mem {db : DB} (huniq : db.idsUnique) {n : Note}
    (hn : n ∈ db.notes) {u : String} (hown : n.username = u) :
    notesFindOne db u n.id = some n := by
  have hpn : noteMatch u n.id n = true := by
    unfold noteMatch
    simp [hown]
  cases h : notesFindOne db u n.id with
  | none =>
    have := List.find?_eq_none.mp h n hn
    exact absurd hpn this
  | some m =>
    have hm : m ∈ db.notes := List.mem_of_find?_eq_some h
    have hpm : noteMatch u n.id m = true := List.find?_some h
    have hid : m.id = n.id := by
      have := (Bool.and_eq_true _ _).mp hpm
      exact beq_iff_eq.mp this.2
    have hmn : m = n := eq_of_id_eq huniq hn hm hid
    rw [hmn]

/-- `findOneAndDelete` on an owned note with unique ids: it removes exactly
that note, and every note before it in the store failed the filter. -/
theorem notesFindOneAndDelete_spec {db : DB} (huniq : db.idsUnique)
    {n : Note} (hn : n ∈ db.notes) {u : String} (hown : n.username = u) :
    ∃ l₁ l₂, db.notes = l₁ ++ n :: l₂ ∧ (∀ x ∈ l₁, noteMatch u n.id x = false) ∧
      notesFindOneAndDelete db u n.id = (some n, { db with notes := l₁ ++ l₂ }) := by
  have hpn : noteMatch u n.id n = true := by
    unfold noteMatch
    simp [hown]
  obtain ⟨m, l₁, l₂, hm, hl, hfail, hdel⟩ :=
    deleteFirst_decomp (noteMatch u n.id) db.notes n hn hpn
  have hmmem : m ∈ db.notes := by rw [hl]; exact List.mem_append_right _ (List.mem_cons_self _ _)
  have hid : m.id = n.id := by
    have := (Bool.and_eq_true _ _).mp hm
    exact beq_iff_eq.mp this.2
  have hmn : m = n := eq_of_id_eq huniq hn hmmem hid
  subst hmn
  exact ⟨l₁, l₂, hl, hfail, by unfold notesFindOneAndDelete; rw [hdel]⟩

/-- `findOneAndUpdate` with `$set {title, content}` on an owned note with
unique ids: it rewrites exactly that note's `title` and `content`, keeping
its `_id` and `username` and every other note untouched. -/
theorem notesFindOneAndUpdate_spec {db : DB} (huniq : db.idsUnique)
    {n : Note} (hn : n ∈ db.notes) {u : String} (hown : n.username = u)
    (T' C' : String) :
    ∃ l₁ l₂, db.notes = l₁ ++ n :: l₂ ∧
      notesFindOneAndUpdate db u n.id T' C' =
        (some n, { db with notes := l₁ ++ ⟨n.id, T', C', n.username⟩ :: l₂ }) := by
  have hpn : noteMatch u n.id n = true := by
    unfold noteMatch
    simp [hown]
  obtain ⟨m, l₁, l₂, hm, hl, hfail, hupd⟩ :=
    updateFirst_decomp (noteMatch u n.id)
      (fun x => { x with title := T', content := C' }) db.notes n hn hpn
  have hmmem : m ∈ db.notes := by rw [hl]; exact List.mem_append_right _ (List.mem_cons_self _ _)
  have hid : m.id = n.id := by
    have := (Bool.and_eq_true _ _).mp hm
    exact beq_iff_eq.mp this.2
  have hmn : m = n := eq_of_id_eq huniq hn hmmem hid
  subst hmn
  exact ⟨l₁, l₂, hl, by unfold notesFindOneAndUpdate; rw [hupd]⟩

/-! ## Sample states used by witnesses -/

/-- An empty database. -/
def dbEmpty : DB := ⟨[], [], 0, 0⟩

/-- One registered user `alice` with digest of `pw1`. -/
def dbAlice : DB := ⟨[⟨"alice", ⟨0, "pw1"⟩⟩], [], 0, 1⟩

/-! ## Claims -/

/-- C10: for `get` (`/getNote`), `delete` (`/deleteNote`) and `update`
(`/editNote`), a note id that fails `ObjectId.isValid` makes the operation
respond 400 "Invalid note ID." regardless of the `Authorization` header —
absent, invalid or expired alike — with no store access and no state
change, because the id check runs before token verification. -/
theorem idCheck_before_auth (db : DB) (now : Nat) (auth : Option TokenVal)
    (raw : String) (title content : String) :
    getNote db now auth (.malformed raw) =
      ⟨400, .errorMsg "Invalid note ID.", db, []⟩ ∧
    deleteNote db now auth (.malformed raw) =
      ⟨400, .errorMsg "Invalid note ID.", db, []⟩ ∧
    editNote db now auth (.malformed raw) title content =
      ⟨400, .errorMsg "Invalid note ID.", db, []⟩ :=
  ⟨rfl, rfl, rfl⟩

/-- C4: login with a registered username but wrong password and login with
an unregistered username produce the identical response — status 401 and
body "Authentication failed." — so the caller cannot tell the two failure
causes apart. -/
theorem login_failure_indistinguishable (db₁ db₂ : DB) (now₁ now₂ : Nat)
    (u₁ p₁ u₂ p₂ : String) (hu₁ : u₁ ≠ "") (hp₁ : p₁ ≠ "")
    (hu₂ : u₂ ≠ "") (hp₂ : p₂ ≠ "") (r : UserRec)
    (hfound : usersFindOne db₁ u₁ = some r)
    (hwrong : bcryptCompare p₁ r.password = false)
    (hmissing : usersFindOne db₂ u₂ = none) :
    loginUser db₁ now₁ u₁ p₁ =
      ⟨401, .errorMsg "Authentication failed.", db₁, [.userFind]⟩ ∧
    loginUser db₂ now₂ u₂ p₂ =
      ⟨401, .errorMsg "Authentication failed.", db₂, [.userFind]⟩ ∧
    (loginUser db₁ now₁ u₁ p₁).status = (loginUser db₂ now₂ u₂ p₂).status ∧
    (loginUser db₁ now₁ u₁ p₁).body = (loginUser db₂ now₂ u₂ p₂).body := by
  have eu₁ : (u₁ == "") = false := beq_eq_false_iff_ne.mpr hu₁
  have ep₁ : (p₁ == "") = false := beq_eq_false_iff_ne.mpr hp₁
  have eu₂ : (u₂ == "") = false := beq_eq_false_iff_ne.mpr hu₂
  have ep₂ : (p₂ == "") = false := beq_eq_false_iff_ne.mpr hp₂
  have h₁ : loginUser db₁ now₁ u₁ p₁ =
      ⟨401, .errorMsg "Authentication failed.", db₁, [.userFind]⟩ := by
    simp [loginUser, eu₁, ep₁, hfound, hwrong]
  have h₂ : loginUser db₂ now₂ u₂ p₂ =
      ⟨401, .errorMsg "Authentication failed.", db₂, [.userFind]⟩ := by
    simp [loginUser, eu₂, ep₂, hmissing]
  exact ⟨h₁, h₂, by rw [h₁, h₂], by rw [h₁, h₂]⟩

/-- Witness for C4 at a concrete state: `alice` exists in `dbAlice` with
password `pw1`; a wrong-password login and a nonexistent-user login both
yield the identical 401 response. -/
theorem login_failure_indistinguishable_witness :
    loginUser dbAlice 5 "alice" "wrong" =
      ⟨401, .errorMsg "Authentication failed.", dbAlice, [.userFind]⟩ ∧
    loginUser dbEmpty 9 "bob" "pw" =
      ⟨401, .errorMsg "Authentication failed.", dbEmpty, [.userFind]⟩ := by
  have h := login_failure_indistinguishable dbAlice dbEmpty 5 9
    "alice" "wrong" "bob" "pw" (by decide) (by decide) (by decide) (by decide)
    ⟨"alice", ⟨0, "pw1"⟩⟩ (by decide) (by decide) (by decide)
  exact ⟨h.1, h.2.1⟩

/-- C2 counterexample: a request with no `Authorization` header at all —
one way for the bearer token to be "missing" — makes `getAllNotes` respond
500 (reading the absent header throws a `TypeError` that the `catch` turns
into a 500), not 401 as the claim states. -/
theorem missing_header_not_401 :
    (getAllNotes dbEmpty 0 none).status = 500 ∧
    ¬ (getAllNotes dbEmpty 0 none).status = 401 := by decide

/-- C2 amended: for every operation, a request that passes the operation's
earlier request checks (non-empty `title`/`content` for create, well-formed
id for get/update/delete) and carries an `Authorization` header whose token
is malformed, tampered with, or expired responds 401 "Unauthorized." with
no store access and no state change; if the header is absent entirely, the
operation responds 500 instead of 401, again with no store access. -/
theorem invalid_token_unauthorized (db : DB) (now : Nat) (tok : TokenVal)
    (hver : jwtVerify secretKey now tok = none) (title content : String)
    (ht : title ≠ "") (hc : content ≠ "") (oid : Nat) :
    postNote db now (some tok) title content =
      ⟨401, .text "Unauthorized.", db, []⟩ ∧
    getNote db now (some tok) (.wellFormed oid) =
      ⟨401, .text "Unauthorized.", db, []⟩ ∧
    getAllNotes db now (some tok) =
      ⟨401, .text "Unauthorized.", db, []⟩ ∧
    deleteNote db now (some tok) (.wellFormed oid) =
      ⟨401, .text "Unauthorized.", db, []⟩ ∧
    editNote db now (some tok) (.wellFormed oid) title content =
      ⟨401, .text "Unauthorized.", db, []⟩ ∧
    postNote db now none title content =
      ⟨500, .errorMsg missingHeaderError, db, []⟩ ∧
    getNote db now none (.wellFormed oid) =
      ⟨500, .errorMsg missingHeaderError, db, []⟩ ∧
    getAllNotes db now none =
      ⟨500, .errorMsg missingHeaderError, db, []⟩ ∧
    deleteNote db now none (.wellFormed oid) =
      ⟨500, .errorMsg missingHeaderError, db, []⟩ ∧
    editNote db now none (.wellFormed oid) title content =
      ⟨500, .errorMsg missingHeaderError, db, []⟩ := by
  have et : (title == "") = false := beq_eq_false_iff_ne.mpr ht
  have ec : (content == "") = false := beq_eq_false_iff_ne.mpr hc
  refine ⟨?_, ?_, ?_, ?_, ?_, ?_, ?_, ?_, ?_, ?_⟩ <;>
    simp [postNote, getNote, getAllNotes, deleteNote, editNote, et, ec, hver]

/-- Witness for C2's amended statement: a garbage token on `getAllNotes`
yields 401 with an empty store trace. -/
theorem invalid_token_unauthorized_witness :
    getAllNotes dbEmpty 3 (some .garbage) =
      ⟨401, .text "Unauthorized.", dbEmpty, []⟩ :=
  (invalid_token_unauthorized dbEmpty 3 .garbage rfl "t" "c"
    (by decide) (by decide) 0).2.2.1

/-- C3: with a non-empty, unregistered username and a non-empty password,
`registerUser` responds 201 with a token, a subsequent `loginUser` with the
same credentials responds 200 with a token, and both tokens verify (at any
time before their respective expiries) to that same username. -/
theorem register_login_roundtrip (db : DB) (now₁ now₂ tv₁ tv₂ : Nat)
    (username password : String) (hu : username ≠ "") (hp : password ≠ "")
    (hfree : usersFindOne db username = none)
    (h₁ : tv₁ < now₁ + 3600) (h₂ : tv₂ < now₂ + 3600) :
    (registerUser db now₁ username password).status = 201 ∧
    (registerUser db now₁ username password).body =
      .registerOk "User registered successfully." (jwtSign secretKey username now₁) ∧
    (loginUser (registerUser db now₁ username password).db now₂
        username password).status = 200 ∧
    (loginUser (registerUser db now₁ username password).db now₂
        username password).body =
      .loginOk "User logged in succesfully." (jwtSign secretKey username now₂) ∧
    jwtVerify secretKey tv₁ (jwtSign secretKey username now₁) = some username ∧
    jwtVerify secretKey tv₂ (jwtSign secretKey username now₂) = some username := by
  have eu : (username == "") = false := beq_eq_false_iff_ne.mpr hu
  have ep : (password == "") = false := beq_eq_false_iff_ne.mpr hp
  have hreg : registerUser db now₁ username password =
      ⟨201, .registerOk "User registered successfully." (jwtSign secretKey username now₁),
        usersInsertOne { db with nextSalt := db.nextSalt + 1 } username
          (bcryptHash db.nextSalt password),
        [.userFind, .userInsert]⟩ := by
    simp [registerUser, eu, ep, hfree]
  have hfree' : db.users.find? (fun r => r.username == username) = none := hfree
  have hfind : usersFindOne
      (usersInsertOne { db with nextSalt := db.nextSalt + 1 } username
        (bcryptHash db.nextSalt password)) username
      = some ⟨username, bcryptHash db.nextSalt password⟩ := by
    unfold usersFindOne usersInsertOne
    rw [find?_append_none _ _ _ hfree']
    simp
  have hlogin : loginUser
      (usersInsertOne { db with nextSalt := db.nextSalt + 1 } username
        (bcryptHash db.nextSalt password)) now₂ username password =
      ⟨200, .loginOk "User logged in succesfully." (jwtSign secretKey username now₂),
        usersInsertOne { db with nextSalt := db.nextSalt + 1 } username
          (bcryptHash db.nextSalt password), [.userFind]⟩ := by
    simp only [loginUser, eu, ep, Bool.or_self, Bool.false_eq_true, if_false]
    rw [hfind]
    simp [bcryptCompare, bcryptHash]
  rw [hreg]
  refine ⟨rfl, rfl, ?_, ?_, ?_, ?_⟩
  · rw [hlogin]
  · rw [hlogin]
  · simp [jwtVerify, jwtSign, h₁]
  · simp [jwtVerify, jwtSign, h₂]

/-- Witness for C3: registering `carol`/`pw` in the empty database and
logging in immediately afterwards, with both tokens verified at time 10. -/
theorem register_login_roundtrip_witness :
    (registerUser dbEmpty 0 "carol" "pw").status = 201 ∧
    (loginUser (registerUser dbEmpty 0 "carol" "pw").db 1 "carol" "pw").status = 200 ∧
    jwtVerify secretKey 10 (jwtSign secretKey "carol" 0) = some "carol" ∧
    jwtVerify secretKey 10 (jwtSign secretKey "carol" 1) = some "carol" := by
  have h := register_login_roundtrip dbEmpty 0 1 10 10 "carol" "pw"
    (by decide) (by decide) (by decide) (by decide) (by decide)
  exact ⟨h.1, h.2.2.1, h.2.2.2.2.1, h.2.2.2.2.2⟩

/-- C7: after a successful registration of a username, a later
registration of the same username (with non-empty password) responds 400
"Username already exists.", leaves the database unchanged, and exactly one
User record for that username exists. -/
theorem register_duplicate_rejected (db : DB) (now₁ now₂ : Nat)
    (username p₁ p₂ : String) (hu : username ≠ "") (hp₁ : p₁ ≠ "")
    (hp₂ : p₂ ≠ "") (hfree : usersFindOne db username = none) :
    (registerUser db now₁ username p₁).status = 201 ∧
    registerUser (registerUser db now₁ username p₁).db now₂ username p₂ =
      ⟨400, .errorMsg "Username already exists.",
        (registerUser db now₁ username p₁).db, [.userFind]⟩ ∧
    ((registerUser db now₁ username p₁).db.users.filter
        (fun r => r.username == username)).length = 1 := by
  have eu : (username == "") = false := beq_eq_false_iff_ne.mpr hu
  have ep₁ : (p₁ == "") = false := beq_eq_false_iff_ne.mpr hp₁
  have ep₂ : (p₂ == "") = false := beq_eq_false_iff_ne.mpr hp₂
  have hreg : registerUser db now₁ username p₁ =
      ⟨201, .registerOk "User registered successfully." (jwtSign secretKey username now₁),
        usersInsertOne { db with nextSalt := db.nextSalt + 1 } username
          (bcryptHash db.nextSalt p₁),
        [.userFind, .userInsert]⟩ := by
    simp [registerUser, eu, ep₁, hfree]
  have hfree' : db.users.find? (fun r => r.username == username) = none := hfree
  have hfind : usersFindOne
      (usersInsertOne { db with nextSalt := db.nextSalt + 1 } username
        (bcryptHash db.nextSalt p₁)) username
      = some ⟨username, bcryptHash db.nextSalt p₁⟩ := by
    unfold usersFindOne usersInsertOne
    rw [find?_append_none _ _ _ hfree']
    simp
  have hnone : ∀ r ∈ db.users, ¬ (r.username == username) = true :=
    List.find?_eq_none.mp hfree'
  rw [hreg]
  refine ⟨rfl, ?_, ?_⟩
  · simp [registerUser, eu, ep₂, hfind]
  · show ((db.users ++ [(⟨username, bcryptHash db.nextSalt p₁⟩ : UserRec)]).filter
        (fun r => r.username == username)).length = 1
    rw [List.filter_append]
    have : db.users.filter (fun r => r.username == username) = [] :=
      List.filter_eq_nil_iff.mpr hnone
    rw [this]
    simp

/-- Witness for C7: registering `dave` twice in the empty database. -/
theorem register_duplicate_rejected_witness :
    registerUser (registerUser dbEmpty 0 "dave" "a").db 1 "dave" "b" =
      ⟨400, .errorMsg "Username already exists.",
        (registerUser dbEmpty 0 "dave" "a").db, [.userFind]⟩ ∧
    ((registerUser dbEmpty 0 "dave" "a").db.users.filter
        (fun r => r.username == "dave")).length = 1 := by
  have h := register_duplicate_rejected dbEmpty 0 1 "dave" "a" "b"
    (by decide) (by decide) (by decide) (by decide)
  exact ⟨h.2.1, h.2.2⟩

/-- A database with `alice`'s note id 0 stored. -/
def dbAliceNote : DB := ⟨[], [⟨0, "t", "c", "alice"⟩], 1, 0⟩

/-- C1: ownership isolation. For distinct users `A ≠ B`, a note owned by
`A` is never returned or mutated through `B`'s valid token: `getNote`,
`deleteNote` and `editNote` on its id respond 404 and leave the database
unchanged, and `getAllNotes` returns exactly `B`'s notes, which never
include it. Ids being pairwise distinct is the store's `_id` invariant. -/
theorem ownership_isolation (db : DB) (now : Nat) (A B : String) (hAB : A ≠ B)
    (tok : TokenVal) (hver : jwtVerify secretKey now tok = some B)
    (n : Note) (hn : n ∈ db.notes) (hown : n.username = A)
    (huniq : db.idsUnique) (T C : String) (hT : T ≠ "") :
    getNote db now (some tok) (.wellFormed n.id) =
      ⟨404, .errorMsg "Unable to find note with given ID.", db, [.noteFind]⟩ ∧
    (getAllNotes db now (some tok)).body = .notesData (notesFindAll db B) ∧
    n ∉ notesFindAll db B ∧
    deleteNote db now (some tok) (.wellFormed n.id) =
      ⟨404, .errorMsg "Unable to find note with given ID.", db, [.noteDelete]⟩ ∧
    editNote db now (some tok) (.wellFormed n.id) T C =
      ⟨404, .errorMsg "Unable to find note with given ID.", db, [.noteFind]⟩ := by
  have hmatch : ∀ m ∈ db.notes, noteMatch B n.id m = false :=
    no_match_of_other_owner huniq hn hown hAB
  have hfind : notesFindOne db B n.id = none := by
    unfold notesFindOne
    exact List.find?_eq_none.mpr fun x hx => by rw [hmatch x hx]; exact Bool.false_ne_true
  have hdel : deleteFirst (noteMatch B n.id) db.notes = (none, db.notes) :=
    deleteFirst_eq_none _ _ hmatch
  have eT : (T == "") = false := beq_eq_false_iff_ne.mpr hT
  refine ⟨?_, ?_, ?_, ?_, ?_⟩
  · simp [getNote, hver, hfind]
  · simp [getAllNotes, hver]
  · intro hmem
    have hB : (n.username == B) = true := (List.mem_filter.mp hmem).2
    exact hAB (hown ▸ beq_iff_eq.mp hB)
  · simp [deleteNote, hver, notesFindOneAndDelete, hdel]
  · simp [editNote, hver, eT, hfind]

/-- Witness for C1: `bob`'s valid token against `alice`'s stored note. -/
theorem ownership_isolation_witness :
    getNote dbAliceNote 0 (some (.signed "bob" 3600 secretKey)) (.wellFormed 0) =
      ⟨404, .errorMsg "Unable to find note with given ID.", dbAliceNote, [.noteFind]⟩ ∧
    (⟨0, "t", "c", "alice"⟩ : Note) ∉ notesFindAll dbAliceNote "bob" ∧
    deleteNote dbAliceNote 0 (some (.signed "bob" 3600 secretKey)) (.wellFormed 0) =
      ⟨404, .errorMsg "Unable to find note with given ID.", dbAliceNote, [.noteDelete]⟩ := by
  have h := ownership_isolation dbAliceNote 0 "alice" "bob" (by decide)
    (.signed "bob" 3600 secretKey) (by decide) ⟨0, "t", "c", "alice"⟩
    (by decide) rfl (by decide) "T" "C" (by decide)
  exact ⟨h.1, h.2.2.1, h.2.2.2.1⟩

/-- C5: delete error behaviour. With a valid token resolving to `u` and a
well-formed id: when no note with that id owned by `u` exists the route
responds 404 and changes nothing; when such a note exists the route
responds 200, exactly that note is removed, and a subsequent `getNote` of
the same id (with any token for `u`) responds 404. -/
theorem delete_note_behaviour (db : DB) (now : Nat) (u : String)
    (tok : TokenVal) (hver : jwtVerify secretKey now tok = some u) (oid : Nat) :
    (notesFindOne db u oid = none →
      deleteNote db now (some tok) (.wellFormed oid) =
        ⟨404, .errorMsg "Unable to find note with given ID.", db, [.noteDelete]⟩) ∧
    (∀ n ∈ db.notes, n.username = u → n.id = oid → db.idsUnique →
      (deleteNote db now (some tok) (.wellFormed oid)).status = 200 ∧
      (∃ l₁ l₂, db.notes = l₁ ++ n :: l₂ ∧
        (deleteNote db now (some tok) (.wellFormed oid)).db.notes = l₁ ++ l₂) ∧
      n ∉ (deleteNote db now (some tok) (.wellFormed oid)).db.notes ∧
      ∀ now₂ tok₂, jwtVerify secretKey now₂ tok₂ = some u →
        (getNote (deleteNote db now (some tok) (.wellFormed oid)).db now₂
            (some tok₂) (.wellFormed oid)).status = 404) := by
  constructor
  · intro hnone
    have hfail : ∀ m ∈ db.notes, noteMatch u oid m = false := by
      intro m hm
      have := List.find?_eq_none.mp hnone m hm
      cases hpm : noteMatch u oid m with
      | true => exact absurd hpm this
      | false => rfl
    have hdel : deleteFirst (noteMatch u oid) db.notes = (none, db.notes) :=
      deleteFirst_eq_none _ _ hfail
    simp [deleteNote, hver, notesFindOneAndDelete, hdel]
  · intro n hn hown hid huniq
    subst hid
    obtain ⟨l₁, l₂, hl, hfail, hdel⟩ := notesFindOneAndDelete_spec huniq hn hown
    have hroute : deleteNote db now (some tok) (.wellFormed n.id) =
        ⟨200, .msgOnly ("Document with ID " ++ toString n.id ++ " deleted succesfully."),
          { db with notes := l₁ ++ l₂ }, [.noteDelete]⟩ := by
      simp [deleteNote, hver, hdel]
    have hnid : n.id ∉ l₂.map Note.id := by
      have huniq' : ((l₁ ++ n :: l₂).map Note.id).Nodup := by rw [← hl]; exact huniq
      rw [List.map_append] at huniq'
      have h2 : ((n :: l₂).map Note.id).Nodup := huniq'.of_append_right
      exact (List.nodup_cons.mp h2).1
    have hnomatch : ∀ x ∈ l₁ ++ l₂, noteMatch u n.id x = false := by
      intro x hx
      rcases List.mem_append.mp hx with h | h
      · exact hfail x h
      · cases hpx : noteMatch u n.id x with
        | false => rfl
        | true =>
          have hxid : x.id = n.id :=
            beq_iff_eq.mp ((Bool.and_eq_true _ _).mp hpx).2
          exact absurd (hxid ▸ List.mem_map_of_mem Note.id h) hnid
    rw [hroute]
    refine ⟨rfl, ⟨l₁, l₂, hl, rfl⟩, ?_, ?_⟩
    · intro hmem
      rcases List.mem_append.mp hmem with h | h
      · have hpn : noteMatch u n.id n = true := by
          unfold noteMatch
          simp [hown]
        exact absurd hpn (by rw [hfail n h]; exact Bool.false_ne_true)
      · exact absurd (List.mem_map_of_mem Note.id h) hnid
    · intro now₂ tok₂ hver₂
      have hfind : notesFindOne { db with notes := l₁ ++ l₂ } u n.id = none := by
        unfold notesFindOne
        exact List.find?_eq_none.mpr fun x hx => by
          rw [hnomatch x hx]; exact Bool.false_ne_true
      simp [getNote, hver₂, hfind]

/-- Witness for C5: deleting `alice`'s note 0 with her own token responds
200, the note is gone, and the follow-up `getNote` responds 404; deleting
a nonexistent id responds 404 leaving the database unchanged. -/
theorem delete_note_behaviour_witness :
    deleteNote dbAliceNote 0 (some (.signed "alice" 3600 secretKey)) (.wellFormed 5) =
      ⟨404, .errorMsg "Unable to find note with given ID.", dbAliceNote, [.noteDelete]⟩ ∧
    (deleteNote dbAliceNote 0 (some (.signed "alice" 3600 secretKey)) (.wellFormed 0)).status = 200 ∧
    (⟨0, "t", "c", "alice"⟩ : Note) ∉
      (deleteNote dbAliceNote 0 (some (.signed "alice" 3600 secretKey)) (.wellFormed 0)).db.notes ∧
    (getNote (deleteNote dbAliceNote 0 (some (.signed "alice" 3600 secretKey)) (.wellFormed 0)).db
        7 (some (.signed "alice" 3600 secretKey)) (.wellFormed 0)).status = 404 := by
  have h := delete_note_behaviour dbAliceNote 0 "alice"
    (.signed "alice" 3600 secretKey) (by decide) 5
  have h0 := delete_note_behaviour dbAliceNote 0 "alice"
    (.signed "alice" 3600 secretKey) (by decide) 0
  have hb := h0.2 ⟨0, "t", "c", "alice"⟩ (by decide) rfl rfl (by decide)
  exact ⟨h.1 (by decide), hb.1, hb.2.2.1, hb.2.2.2 7 (.signed "alice" 3600 secretKey) (by decide)⟩

/-- C6: update frame. For an owned note: setting only `title` responds 200
and rewrites exactly that note to carry the new title with its content,
id and owner unchanged; symmetrically for `content` with `title` omitted;
with both fields absent/empty the route responds 400 "A title or content
are needed to update the note" and mutates nothing. -/
theorem edit_note_frame (db : DB) (now : Nat) (u : String) (tok : TokenVal)
    (hver : jwtVerify secretKey now tok = some u)
    (n : Note) (hn : n ∈ db.notes) (hown : n.username = u)
    (huniq : db.idsUnique) (T C : String) (hT : T ≠ "") (hC : C ≠ "") :
    ((editNote db now (some tok) (.wellFormed n.id) T "").status = 200 ∧
     ∃ l₁ l₂, db.notes = l₁ ++ n :: l₂ ∧
       (editNote db now (some tok) (.wellFormed n.id) T "").db.notes =
         l₁ ++ ⟨n.id, T, n.content, n.username⟩ :: l₂) ∧
    ((editNote db now (some tok) (.wellFormed n.id) "" C).status = 200 ∧
     ∃ l₁ l₂, db.notes = l₁ ++ n :: l₂ ∧
       (editNote db now (some tok) (.wellFormed n.id) "" C).db.notes =
         l₁ ++ ⟨n.id, n.title, C, n.username⟩ :: l₂) ∧
    editNote db now (some tok) (.wellFormed n.id) "" "" =
      ⟨400, .errorMsg "A title or content are needed to update the note", db, []⟩ := by
  have eT : (T == "") = false := beq_eq_false_iff_ne.mpr hT
  have eC : (C == "") = false := beq_eq_false_iff_ne.mpr hC
  have hfind : notesFindOne db u n.id = some n :=
    notesFindOne_eq_of_mem huniq hn hown
  refine ⟨?_, ?_, ?_⟩
  · obtain ⟨l₁, l₂, hl, hupd⟩ := notesFindOneAndUpdate_spec huniq hn hown T n.content
    have hroute : editNote db now (some tok) (.wellFormed n.id) T "" =
        ⟨200, .msgOnly ("Document with ID " ++ toString n.id ++ " properly updated."),
          { db with notes := l₁ ++ ⟨n.id, T, n.content, n.username⟩ :: l₂ },
          [.noteFind, .noteUpdate]⟩ := by
      simp only [editNote]
      rw [hver]
      simp only [eT, Bool.false_and, Bool.false_eq_true, if_false]
      rw [hfind]
      simp only [eT, Bool.false_eq_true, if_false]
      have ec0 : (if (("" : String) == "") = true then n.content else "") = n.content := rfl
      rw [ec0, hupd]
    rw [hroute]
    exact ⟨rfl, l₁, l₂, hl, rfl⟩
  · obtain ⟨l₁, l₂, hl, hupd⟩ := notesFindOneAndUpdate_spec huniq hn hown n.title C
    have hroute : editNote db now (some tok) (.wellFormed n.id) "" C =
        ⟨200, .msgOnly ("Document with ID " ++ toString n.id ++ " properly updated."),
          { db with notes := l₁ ++ ⟨n.id, n.title, C, n.username⟩ :: l₂ },
          [.noteFind, .noteUpdate]⟩ := by
      simp only [editNote]
      rw [hver]
      simp only [eC, Bool.and_false, Bool.false_eq_true, if_false]
      rw [hfind]
      simp only [eC, Bool.false_eq_true, if_false]
      have et0 : (if (("" : String) == "") = true then n.title else "") = n.title := rfl
      rw [et0, hupd]
    rw [hroute]
    exact ⟨rfl, l₁, l₂, hl, rfl⟩
  · simp [editNote, hver]

/-- Witness for C6: editing `alice`'s note 0 with a new title only keeps
its content; with both fields empty the edit is rejected and nothing
changes. -/
theorem edit_note_frame_witness :
    (editNote dbAliceNote 0 (some (.signed "alice" 3600 secretKey))
        (.wellFormed 0) "T2" "").status = 200 ∧
    editNote dbAliceNote 0 (some (.signed "alice" 3600 secretKey))
        (.wellFormed 0) "" "" =
      ⟨400, .errorMsg "A title or content are needed to update the note",
        dbAliceNote, []⟩ := by
  have h := edit_note_frame dbAliceNote 0 "alice" (.signed "alice" 3600 secretKey)
    (by decide) ⟨0, "t", "c", "alice"⟩ (by decide) rfl (by decide)
    "T2" "C2" (by decide) (by decide)
  exact ⟨h.1.1, h.2.2⟩

/-- C9: create/get round-trip. With a token resolving to `u`, non-empty
title and content, and the store's fresh-id invariant, `postNote` responds
200 with the fresh id, and `getNote` of that id (with any token for `u`)
returns exactly the submitted title and content with owner `u`. -/
theorem create_get_roundtrip (db : DB) (now₁ now₂ : Nat) (tok₁ tok₂ : TokenVal)
    (u : String) (hv₁ : jwtVerify secretKey now₁ tok₁ = some u)
    (hv₂ : jwtVerify secretKey now₂ tok₂ = some u)
    (title content : String) (hT : title ≠ "") (hC : content ≠ "")
    (hfresh : db.idsFresh) :
    postNote db now₁ (some tok₁) title content =
      ⟨200, .postOk "Note added succesfully." db.nextNoteId,
        { db with notes := db.notes ++ [⟨db.nextNoteId, title, content, u⟩],
                  nextNoteId := db.nextNoteId + 1 }, [.noteInsert]⟩ ∧
    getNote { db with notes := db.notes ++ [⟨db.nextNoteId, title, content, u⟩],
                      nextNoteId := db.nextNoteId + 1 } now₂ (some tok₂)
        (.wellFormed db.nextNoteId) =
      ⟨200, .noteData ⟨db.nextNoteId, title, content, u⟩,
        { db with notes := db.notes ++ [⟨db.nextNoteId, title, content, u⟩],
                  nextNoteId := db.nextNoteId + 1 }, [.noteFind]⟩ := by
  have eT : (title == "") = false := beq_eq_false_iff_ne.mpr hT
  have eC : (content == "") = false := beq_eq_false_iff_ne.mpr hC
  have hnone : db.notes.find? (noteMatch u db.nextNoteId) = none := by
    refine List.find?_eq_none.mpr fun m hm => ?_
    have hlt : m.id < db.nextNoteId := hfresh m hm
    have : (m.id == db.nextNoteId) = false :=
      beq_eq_false_iff_ne.mpr (Nat.ne_of_lt hlt)
    unfold noteMatch
    rw [this, Bool.and_false]
    exact Bool.false_ne_true
  have hfind : notesFindOne
      { db with notes := db.notes ++ [⟨db.nextNoteId, title, content, u⟩],
                nextNoteId := db.nextNoteId + 1 }
        u db.nextNoteId
      = some ⟨db.nextNoteId, title, content, u⟩ := by
    unfold notesFindOne
    show (db.notes ++ [(⟨db.nextNoteId, title, content, u⟩ : Note)]).find?
      (noteMatch u db.nextNoteId) = _
    rw [find?_append_none _ _ _ hnone]
    simp [noteMatch]
  constructor
  · simp [postNote, eT, eC, hv₁, notesInsertOne]
  · simp [getNote, hv₂, hfind]

/-- Witness for C9: `alice` creates a note in the empty database and reads
it back. -/
theorem create_get_roundtrip_witness :
    postNote dbEmpty 0 (some (.signed "alice" 3600 secretKey)) "t" "c" =
      ⟨200, .postOk "Note added succesfully." 0,
        { dbEmpty with notes := [⟨0, "t", "c", "alice"⟩], nextNoteId := 1 },
        [.noteInsert]⟩ ∧
    getNote { dbEmpty with notes := [⟨0, "t", "c", "alice"⟩], nextNoteId := 1 }
        2 (some (.signed "alice" 3600 secretKey)) (.wellFormed 0) =
      ⟨200, .noteData ⟨0, "t", "c", "alice"⟩,
        { dbEmpty with notes := [⟨0, "t", "c", "alice"⟩], nextNoteId := 1 },
        [.noteFind]⟩ := by
  have h := create_get_roundtrip dbEmpty 0 2 (.signed "alice" 3600 secretKey)
    (.signed "alice" 3600 secretKey) "alice" (by decide) (by decide)
    "t" "c" (by decide) (by decide) (by decide)
  exact h

/-! ## C8: concurrent registration

`/registerUser` runs `await findOne` and only afterwards `await insertOne`:
each `await` is a suspension point at which another in-flight request may
run against the shared database. We model one in-flight registration as a
small state machine whose atomic steps are exactly the store calls of the
handler, and interleave two of them explicitly. -/

/-- The progress of one in-flight `registerUser` request: not yet run, past
its `findOne` existence check (recording the answer), or responded. -/
inductive RegPhase where
  | start
  | checked (found : Bool)
  | done (status : Nat) (body : Body)
  deriving DecidableEq, Repr

/-- One in-flight `registerUser` request. -/
structure RegProc where
  username : String
  password : String
  now : Nat
  phase : RegPhase
  deriving DecidableEq, Repr

/-- One atomic step of an in-flight registration against the shared
database: the body check plus the `findOne`, then (if absent) the hash and
`insertOne` with the response, mirroring `registerUser` split at its
`await` boundary. -/
def regStep (db : DB) (p : RegProc) : RegProc × DB :=
  match p.phase with
  | .start =>
    if p.username == "" || p.password == "" then
      ({ p with phase := .done 400
                  (.errorMsg "Username and password both needed to register.") }, db)
    else
      match usersFindOne db p.username with
      | some _ => ({ p with phase := .checked true }, db)
      | none => ({ p with phase := .checked false }, db)
  | .checked true =>
    ({ p with phase := .done 400 (.errorMsg "Username already exists.") }, db)
  | .checked false =>
    let hashed := bcryptHash db.nextSalt p.password
    let db1 := usersInsertOne { db with nextSalt := db.nextSalt + 1 } p.username hashed
    ({ p with phase := .done 201
                (.registerOk "User registered successfully."
                  (jwtSign secretKey p.username p.now)) }, db1)
  | .done _ _ => (p, db)

/-- Run two in-flight registrations under a schedule: `true` steps the
first process, `false` the second. -/
def runTwo (db : DB) (a b : RegProc) : List Bool → RegProc × RegProc × DB
  | [] => (a, b, db)
  | true :: rest =>
    let r := regStep db a
    runTwo r.2 r.1 b rest
  | false :: rest =>
    let r := regStep db b
    runTwo r.2 a r.1 rest

/-- Sanity: run alone (scheduled twice in a row), the state machine
reproduces `registerUser` exactly — same response and same final state. -/
theorem regStep_refines_registerUser (db : DB) (now : Nat) (u p : String) :
    ((regStep (regStep db ⟨u, p, now, .start⟩).2
        (regStep db ⟨u, p, now, .start⟩).1).1.phase =
      .done (registerUser db now u p).status (registerUser db now u p).body) ∧
    (regStep (regStep db ⟨u, p, now, .start⟩).2
        (regStep db ⟨u, p, now, .start⟩).1).2 = (registerUser db now u p).db := by
  by_cases he : (u == "" || p == "") = true
  · constructor <;> simp [regStep, registerUser, he]
  · have he' : (u == "" || p == "") = false := by
      cases h : (u == "" || p == "") with
      | true => exact absurd h he
      | false => rfl
    cases hf : usersFindOne db u with
    | some r => constructor <;> simp [regStep, registerUser, he', hf]
    | none => constructor <;> simp [regStep, registerUser, he', hf]

/-- C8 refuted on the code: schedule both existence checks before either
insert (`[A, B, A, B]`). Starting from the empty database, both concurrent
registrations of `alice` respond 201 and the final database holds two User
records for `alice` — the check-then-insert pair is not atomic and no
storage-level uniqueness constraint exists. -/
theorem concurrent_register_both_succeed :
    (runTwo dbEmpty ⟨"alice", "pw1", 0, .start⟩ ⟨"alice", "pw2", 0, .start⟩
        [true, false, true, false]).1.phase =
      .done 201 (.registerOk "User registered successfully."
        (jwtSign secretKey "alice" 0)) ∧
    (runTwo dbEmpty ⟨"alice", "pw1", 0, .start⟩ ⟨"alice", "pw2", 0, .start⟩
        [true, false, true, false]).2.1.phase =
      .done 201 (.registerOk "User registered successfully."
        (jwtSign secretKey "alice" 0)) ∧
    ((runTwo dbEmpty ⟨"alice", "pw1", 0, .start⟩ ⟨"alice", "pw2", 0, .start⟩
        [true, false, true, false]).2.2.users.filter
      (fun r => r.username == "alice")).length = 2 := by
  decide

end Quirknotes
